import Mathlib

/-!
Verification of the TalentScout HR chatbot conversation controller
(`app/chat_logic.py`): a shallow embedding of the four-state machine in
`TalentScoutAssistant.process_user_input`, the tech-stack extractor, the
structured-output decoder for `TechAssessment`, and the flattened
question queue, together with theorems settling the documented
behavioural properties. Language-model calls are modelled by an oracle
supplying each call outcome (normal text, or an error standing for a
raised exception).
-/

namespace TalentScout

/-! ### Character-level string primitives

Python string operations used by the source (`str.lower`, the `in`
substring test, `str.split(",")`, `str.strip`) modelled as structural
recursion over character lists. -/

/-- Python `str.lower()` (ASCII case folding, as the source applies it). -/
def pyLower (s : String) : String := String.mk (s.toList.map Char.toLower)

/-- `leadsWith sub l` is true when `sub` occurs at the head of `l`. -/
def leadsWith : List Char → List Char → Bool
  | [], _ => true
  | _ :: _, [] => false
  | a :: as, b :: bs => a == b && leadsWith as bs

/-- `hasSub sub l` is true when `sub` occurs contiguously somewhere in `l`. -/
def hasSub (sub : List Char) : List Char → Bool
  | [] => leadsWith sub []
  | c :: cs => leadsWith sub (c :: cs) || hasSub sub cs

/-- Python substring containment `sub in s`. -/
def strContains (s sub : String) : Bool := hasSub sub.toList s.toList

/-- Python `str.split(sep)` for a one-character separator. -/
def splitChar (sep : Char) : List Char → List (List Char)
  | [] => [[]]
  | c :: cs =>
    let rest := splitChar sep cs
    if c == sep then [] :: rest
    else
      match rest with
      | [] => [[c]]
      | r :: rs => (c :: r) :: rs

/-- Python `str.strip()`: drop whitespace from both ends. -/
def trimChars (l : List Char) : List Char :=
  ((l.dropWhile Char.isWhitespace).reverse.dropWhile Char.isWhitespace).reverse

/-- The list comprehension `[t.strip() for t in response.split(",") if t.strip()]`
from `_extract_tech_stack_from_history`. -/
def splitCommaTrim (response : String) : List String :=
  (((splitChar ',' response.toList).map (fun l => String.mk (trimChars l))).filter
    (fun t => t ≠ ""))

/-! ### JSON values and the structured-output decoder

`PydanticOutputParser(pydantic_object=TechAssessment)` validates the model
output against the schema `TechAssessment { assessment : Dict[str, List[TechQuestion]] }`
with `TechQuestion { question : str }`. The schema carries a 3-to-5 questions
wording only in a `Field` description (an instruction to the model), not as a
validation constraint, so the decoder itself imposes no length bounds. -/

/-- A JSON value, as produced by the model and consumed by the decoder. -/
inductive Json where
  | str (s : String)
  | num (n : Int)
  | bool (b : Bool)
  | null
  | arr (elems : List Json)
  | obj (fields : List (String × Json))

/-- Field lookup in a JSON object. -/
def lookupField : List (String × Json) → String → Option Json
  | [], _ => none
  | (k, v) :: rest, key => if k = key then some v else lookupField rest key

/-- Validation of one `TechQuestion` object: a JSON object whose
`question` field is a string. -/
def parseTechQuestion : Json → Option String
  | Json.obj fields =>
      match lookupField fields "question" with
      | some (Json.str q) => some q
      | _ => none
  | _ => none

/-- Validation of a `List[TechQuestion]` value. No length constraint is applied. -/
def parseQuestionList : Json → Option (List String)
  | Json.arr elems => elems.mapM parseTechQuestion
  | _ => none

/-- Validation of the `Dict[str, List[TechQuestion]]` payload, keeping key order. -/
def parseAssessmentMap : Json → Option (List (String × List String))
  | Json.obj fields =>
      fields.mapM (fun p => (parseQuestionList p.2).map (fun qs => (p.1, qs)))
  | _ => none

/-- The decoder `self.assessment_parser.parse`: the output must be an object
with an `assessment` field whose value validates as the technology map. -/
def parseTechAssessment : Json → Option (List (String × List String))
  | Json.obj fields =>
      match lookupField fields "assessment" with
      | some inner => parseAssessmentMap inner
      | none => none
  | _ => none

/-- The flattening loop `for questions in self.tech_questions.values():
self.all_questions_list.extend([q.question for q in questions])`. -/
def flattenAssessment (a : List (String × List String)) : List String :=
  (a.map (fun p => p.2)).flatten

/-! ### Conversation data model -/

/-- A message author in the buffered conversation memory. -/
inductive Role where
  | user
  | assistant
  deriving DecidableEq

/-- One stored message of the LangChain conversation memory. -/
structure Turn where
  role : Role
  content : String
  deriving DecidableEq

/-- The `State` labels from `config/settings.py` used by the controller;
`other` stands for any unrecognized state string (the defensive `else`). -/
inductive ConvState where
  | GREETING
  | GATHER_INFO
  | ASK_QUESTIONS
  | END
  | other (label : String)
  deriving DecidableEq

/-- The mutable session fields of `TalentScoutAssistant`: the memory buffer,
`current_question_index`, `all_questions_list`, `user_answers`, and the
`tech_questions` attribute set on decode success. -/
structure AState where
  history : List Turn
  current_question_index : Nat
  all_questions_list : List String
  user_answers : List (String × String)
  tech_questions : Option (List (String × List String))
  deriving DecidableEq

/-- Outcomes of the (at most) three language-model calls a single turn can
make. `Except.error` stands for the underlying call raising an exception. -/
structure LLMOracle where
  infoResponse : String
  extractResponse : Except String String
  genResponse : Except String Json

/-- Python dict assignment `d[k] = v` on an insertion-ordered association list. -/
def dictInsert : List (String × String) → String → String → List (String × String)
  | [], k, v => [(k, v)]
  | (k0, v0) :: rest, k, v =>
      if k0 = k then (k0, v) :: rest else (k0, v0) :: dictInsert rest k v

/-- Python dict lookup `d.get(k)` on an insertion-ordered association list. -/
def dictLookup : List (String × String) → String → Option String
  | [], _ => none
  | (k0, v0) :: rest, k => if k0 = k then some v0 else dictLookup rest k

/-! ### Fixed texts of the controller -/

/-- The exit-word list of `process_user_input`. -/
def exitWords : List String := ["quit", "bye", "exit", "end"]

/-- The transition marker phrase scanned for in the last stored turn. -/
def markerPhrase : String := "technical assessment stage"

/-- The confirmation keyword scanned for in the user input. -/
def nextKeyword : String := "next"

/-- The fixed closing message returned by `_end_conversation`. -/
def closingMessage : String :=
  "Thank you for completing the initial screening with TalentScout Hiring Assistant. Your information has been securely recorded. Goodbye and good luck!"

/-- `_end_conversation(final_state)`: ignores its argument and returns the
fixed closing message. -/
def end_conversation (_final_state : ConvState) : String := closingMessage

/-- The generation-failure message of the GATHER_INFO confirmation branch. -/
def genFailedMessage : String :=
  "I apologize, question generation failed. Ending conversation."

/-- The defensive fallback response of the final `else` branch. -/
def didNotUnderstandMessage : String :=
  "I did not understand. Can you please repeat?"

/-- The confirmation-turn response announcing the question count and the
first question, labelled `Question 1`. -/
def announceMessage (n : Nat) (q : String) : String :=
  "Excellent. We have " ++ toString n ++ " questions. **Question 1:** " ++ q

/-- The ASK_QUESTIONS acknowledgement presenting the next question under the
displayed number `q_num`. -/
def ackMessage (q_num : Nat) (q : String) : String :=
  "Thank you for your answer. \n\n**Question " ++ toString q_num ++ ":** " ++ q

/-! ### The controller operations -/

/-- `_extract_tech_stack_from_history`: the whole model call and split are
inside `try`, and any exception yields the fixed fallback list. -/
def extract_tech_stack_from_history (response : Except String String) : List String :=
  match response with
  | Except.ok content => splitCommaTrim content
  | Except.error _ => ["Python", "SQL"]

/-- `_generate_technical_questions`: the `llm.invoke` call sits outside the
`try` block, so a model-call error propagates; only decoding is guarded, a
decode failure returning `None` with the fields untouched. On success the
decoded assessment is stored and its questions are appended to
`all_questions_list`. The tech-stack argument only shapes the prompt, which
the oracle models, so it does not appear here beyond the signature. -/
def generate_technical_questions (tech_stack : List String)
    (response : Except String Json) (st : AState) :
    Except String (Option (List (String × List String)) × AState) :=
  match tech_stack, response with
  | _, Except.error e => Except.error e
  | _, Except.ok content =>
      match parseTechAssessment content with
      | some a =>
          Except.ok (some a,
            { st with
              tech_questions := some a,
              all_questions_list := st.all_questions_list ++ flattenAssessment a })
      | none => Except.ok (none, st)

/-- `_get_next_question`: return the question at the cursor and advance the
cursor, or `None` when the cursor has reached the end of the queue. -/
def get_next_question (st : AState) : Option String × AState :=
  if h : st.current_question_index < st.all_questions_list.length then
    (some (st.all_questions_list.get ⟨st.current_question_index, h⟩),
     { st with current_question_index := st.current_question_index + 1 })
  else
    (none, st)

/-- `self.memory.load_memory_variables(...)["history"][-1].content.lower()`
when the buffer is nonempty, else the empty string. -/
def lastHistoryLower (st : AState) : String :=
  match st.history.getLast? with
  | some t => pyLower t.content
  | none => ""

/-- `self.info_chain.run(user_input=...)`: the chain produces the model
response and its memory appends the user turn and the model turn. -/
def runInfoChain (o : LLMOracle) (user_input : String) (st : AState) :
    String × AState :=
  (o.infoResponse,
   { st with
     history := st.history ++ [⟨Role.user, user_input⟩, ⟨Role.assistant, o.infoResponse⟩] })

/-- `process_user_input(user_input, current_state)`: the four-state
controller. Returns `Except.error` exactly when an uncaught exception would
escape the Python method. -/
def process_user_input (o : LLMOracle) (user_input : String)
    (current_state : ConvState) (st : AState) :
    Except String (String × ConvState × AState) :=
  if exitWords.contains (pyLower user_input) then
    Except.ok (end_conversation ConvState.END, ConvState.END, st)
  else
    match current_state with
    | ConvState.GREETING =>
        let r := runInfoChain o user_input st
        Except.ok (r.1, ConvState.GATHER_INFO, r.2)
    | ConvState.GATHER_INFO =>
        if strContains (pyLower user_input) nextKeyword
            && strContains (lastHistoryLower st) markerPhrase then
          let tech_stack := extract_tech_stack_from_history o.extractResponse
          match generate_technical_questions tech_stack o.genResponse st with
          | Except.error e => Except.error e
          | Except.ok (_, st1) =>
              if st1.all_questions_list = [] then
                Except.ok (genFailedMessage, ConvState.END, st1)
              else
                let r := get_next_question st1
                Except.ok (announceMessage st1.all_questions_list.length (r.1.getD ""),
                  ConvState.ASK_QUESTIONS, r.2)
        else
          let r := runInfoChain o user_input st
          Except.ok (r.1, ConvState.GATHER_INFO, r.2)
    | ConvState.ASK_QUESTIONS =>
        let st1 :=
          { st with
            user_answers :=
              dictInsert st.user_answers
                ("Q" ++ toString st.current_question_index) user_input }
        match get_next_question st1 with
        | (some q, st2) =>
            if q = "" then
              Except.ok (end_conversation ConvState.END, ConvState.END, st2)
            else
              Except.ok (ackMessage (st2.current_question_index + 1) q,
                ConvState.ASK_QUESTIONS, st2)
        | (none, st2) => Except.ok (end_conversation ConvState.END, ConvState.END, st2)
    | ConvState.END => Except.ok (didNotUnderstandMessage, ConvState.END, st)
    | ConvState.other lbl => Except.ok (didNotUnderstandMessage, ConvState.other lbl, st)

/-- Repeated invocation of the controller on a sequence of user inputs,
threading the returned state as the Streamlit session layer does; an
escaping exception aborts the run at the failing turn. -/
def runTurns (o : LLMOracle) : List String → ConvState → AState → ConvState × AState
  | [], s, st => (s, st)
  | i :: rest, s, st =>
      match process_user_input o i s st with
      | Except.ok r => runTurns o rest r.2.1 r.2.2
      | Except.error _ => (s, st)

/-- An arbitrary quiet oracle for turns that make no model call. -/
def quietOracle : LLMOracle :=
  ⟨"ok", Except.ok "Python, SQL", Except.ok Json.null⟩

/-- A fresh session state as `TalentScoutAssistant.__init__` leaves it. -/
def initialState : AState :=
  ⟨[], 0, [], [], none⟩

/-! ### Helper lemmas -/

theorem dictLookup_dictInsert (d : List (String × String)) (k v : String) :
    dictLookup (dictInsert d k v) k = some v := by
  induction d with
  | nil => simp [dictInsert, dictLookup]
  | cons p rest ih =>
      obtain ⟨k0, v0⟩ := p
      by_cases hk : k0 = k
      · simp [dictInsert, dictLookup, hk]
      · simp [dictInsert, dictLookup, hk, ih]

theorem dictInsert_of_lookup_none (d : List (String × String)) (k v : String)
    (h : dictLookup d k = none) : dictInsert d k v = d ++ [(k, v)] := by
  induction d with
  | nil => simp [dictInsert]
  | cons p rest ih =>
      obtain ⟨k0, v0⟩ := p
      by_cases hk : k0 = k
      · simp [dictLookup, hk] at h
      · simp [dictLookup, hk] at h
        simp [dictInsert, hk, ih h]

theorem get_next_question_of_lt (st : AState)
    (h : st.current_question_index < st.all_questions_list.length) :
    get_next_question st =
      (some (st.all_questions_list.get ⟨st.current_question_index, h⟩),
       { st with current_question_index := st.current_question_index + 1 }) := by
  simp [get_next_question, h]

theorem get_next_question_of_ge (st : AState)
    (h : ¬ st.current_question_index < st.all_questions_list.length) :
    get_next_question st = (none, st) := by
  simp [get_next_question, h]

/-- The association-list update performed by an ASK_QUESTIONS turn. -/
def answerInsert (st : AState) (input : String) : List (String × String) :=
  dictInsert st.user_answers ("Q" ++ toString st.current_question_index) input

/-- Shape of an ASK_QUESTIONS turn when a question remains and it is a
nonempty string: the answer is recorded under the pre-turn cursor, the
cursor advances, and the next question is displayed under number cursor+2. -/
theorem process_ask_of_lt (o : LLMOracle) (input : String) (st : AState)
    (hx : exitWords.contains (pyLower input) = false)
    (h : st.current_question_index < st.all_questions_list.length)
    (hq : st.all_questions_list.get ⟨st.current_question_index, h⟩ ≠ "") :
    process_user_input o input ConvState.ASK_QUESTIONS st =
      Except.ok
        (ackMessage (st.current_question_index + 2)
          (st.all_questions_list.get ⟨st.current_question_index, h⟩),
         ConvState.ASK_QUESTIONS,
         { st with
           user_answers := answerInsert st input,
           current_question_index := st.current_question_index + 1 }) := by
  have hx2 : pyLower input ∉ exitWords := by simpa using hx
  simp only [List.get_eq_getElem] at hq
  simp [process_user_input, hx2, get_next_question, h, hq, answerInsert]

/-- Shape of an ASK_QUESTIONS turn when the cursor has exhausted the queue:
the answer is still recorded, the cursor stays, the closing message is
returned and the state moves to END. -/
theorem process_ask_of_ge (o : LLMOracle) (input : String) (st : AState)
    (hx : exitWords.contains (pyLower input) = false)
    (h : ¬ st.current_question_index < st.all_questions_list.length) :
    process_user_input o input ConvState.ASK_QUESTIONS st =
      Except.ok (closingMessage, ConvState.END,
        { st with user_answers := answerInsert st input }) := by
  have hx2 : pyLower input ∉ exitWords := by simpa using hx
  simp [process_user_input, hx2, get_next_question, h, answerInsert, end_conversation]

/-- Shape of an ASK_QUESTIONS turn when a question remains but its text is
the empty string (falsy in Python): the answer is recorded, the cursor
advances, yet the turn returns the closing message and moves to END. -/
theorem process_ask_of_empty (o : LLMOracle) (input : String) (st : AState)
    (hx : exitWords.contains (pyLower input) = false)
    (h : st.current_question_index < st.all_questions_list.length)
    (hq : st.all_questions_list.get ⟨st.current_question_index, h⟩ = "") :
    process_user_input o input ConvState.ASK_QUESTIONS st =
      Except.ok (closingMessage, ConvState.END,
        { st with
          user_answers := answerInsert st input,
          current_question_index := st.current_question_index + 1 }) := by
  have hx2 : pyLower input ∉ exitWords := by simpa using hx
  simp only [List.get_eq_getElem] at hq
  simp [process_user_input, hx2, get_next_question, h, hq, answerInsert, end_conversation]

/-- Runs that have reached END never leave it and never change the session
fields. -/
theorem runTurns_END (o : LLMOracle) (inputs : List String) (st : AState) :
    runTurns o inputs ConvState.END st = (ConvState.END, st) := by
  induction inputs with
  | nil => rfl
  | cons i rest ih =>
      by_cases hx : pyLower i ∈ exitWords
      · simp [runTurns, process_user_input, hx, ih]
      · simp [runTurns, process_user_input, hx, ih]

/-- Cursor evolution over a block of ASK_QUESTIONS turns: starting at any
cursor position within the queue, with non-exit inputs and no empty question
texts, processing the inputs advances the cursor to `min (start + count) L`,
remains in ASK_QUESTIONS exactly while `start + count ≤ L`, and never touches
the queue. -/
theorem runTurns_ask_cursor (o : LLMOracle) (inputs : List String) :
    ∀ st : AState,
      (∀ i ∈ inputs, exitWords.contains (pyLower i) = false) →
      "" ∉ st.all_questions_list →
      st.current_question_index ≤ st.all_questions_list.length →
      st.current_question_index + inputs.length ≤ st.all_questions_list.length + 1 →
      (runTurns o inputs ConvState.ASK_QUESTIONS st).2.current_question_index
          = min (st.current_question_index + inputs.length) st.all_questions_list.length
        ∧ (runTurns o inputs ConvState.ASK_QUESTIONS st).1
          = (if st.current_question_index + inputs.length ≤ st.all_questions_list.length
              then ConvState.ASK_QUESTIONS else ConvState.END)
        ∧ (runTurns o inputs ConvState.ASK_QUESTIONS st).2.all_questions_list
          = st.all_questions_list := by
  induction inputs with
  | nil =>
      intro st hx hne hc hlen
      refine ⟨?_, ?_, rfl⟩
      · simp [runTurns, Nat.min_eq_left hc]
      · simp [runTurns, hc]
  | cons i rest ih =>
      intro st hx hne hc hlen
      have hxi : exitWords.contains (pyLower i) = false := hx i (by simp)
      have hxr : ∀ y ∈ rest, exitWords.contains (pyLower y) = false :=
        fun y hy => hx y (by simp [hy])
      by_cases h : st.current_question_index < st.all_questions_list.length
      · have hq : st.all_questions_list.get ⟨st.current_question_index, h⟩ ≠ "" := by
          intro hcontra
          exact hne (hcontra ▸ List.get_mem _ _ _)
        have hrun : runTurns o (i :: rest) ConvState.ASK_QUESTIONS st =
            runTurns o rest ConvState.ASK_QUESTIONS
              { st with
                user_answers := answerInsert st i,
                current_question_index := st.current_question_index + 1 } := by
          simp [runTurns, process_ask_of_lt o i st hxi h hq]
        obtain ⟨ih1, ih2, ih3⟩ :=
          ih { st with
               user_answers := answerInsert st i,
               current_question_index := st.current_question_index + 1 }
            hxr hne h
            (by
              simp only [List.length_cons] at hlen
              show st.current_question_index + 1 + rest.length
                  ≤ st.all_questions_list.length + 1
              omega)
        have harith : st.current_question_index + (rest.length + 1)
            = st.current_question_index + 1 + rest.length := by omega
        refine ⟨?_, ?_, ?_⟩
        · rw [hrun]
          simp only [List.length_cons, harith]
          exact ih1
        · rw [hrun]
          simp only [List.length_cons, harith]
          exact ih2
        · rw [hrun]
          exact ih3
      · have hceq : st.current_question_index = st.all_questions_list.length :=
          Nat.le_antisymm hc (Nat.le_of_not_lt h)
        have hr0 : rest = [] := by
          have hl : rest.length = 0 := by
            simp only [List.length_cons] at hlen
            omega
          exact List.eq_nil_of_length_eq_zero hl
        subst hr0
        have hrun : runTurns o [i] ConvState.ASK_QUESTIONS st =
            (ConvState.END, { st with user_answers := answerInsert st i }) := by
          simp [runTurns, process_ask_of_ge o i st hxi h]
        refine ⟨?_, ?_, ?_⟩
        · rw [hrun]
          dsimp only
          simp only [List.length_cons, List.length_nil]
          omega
        · rw [hrun]
          dsimp only
          rw [if_neg (by simp only [List.length_cons, List.length_nil]; omega)]
        · rw [hrun]

/-- The flattened queue length is the sum of the per-technology counts. -/
theorem length_flattenAssessment (a : List (String × List String)) :
    (flattenAssessment a).length = (a.map (fun p => p.2.length)).sum := by
  simp [flattenAssessment, List.length_flatten, List.map_map, Function.comp_def]

/-- Summing per-technology counts that each lie in [3, 5] yields a total in
[3N, 5N]. -/
theorem sum_counts_bounds (a : List (String × List String))
    (hb : ∀ p ∈ a, 3 ≤ p.2.length ∧ p.2.length ≤ 5) :
    3 * a.length ≤ (a.map (fun p => p.2.length)).sum
      ∧ (a.map (fun p => p.2.length)).sum ≤ 5 * a.length := by
  induction a with
  | nil => simp
  | cons p rest ih =>
      have hp := hb p (by simp)
      have hr := ih (fun q hq => hb q (by simp [hq]))
      simp only [List.map_cons, List.sum_cons, List.length_cons]
      omega

/-! ### Concrete fixtures used by witnesses and counterexamples -/

/-- A `TechQuestion` JSON object. -/
def qObj (s : String) : Json := Json.obj [("question", Json.str s)]

/-- A decoded model output with one technology and a single question. -/
def oneQuestionJson : Json :=
  Json.obj [("assessment", Json.obj [("Python", Json.arr [qObj "What is a decorator?"])])]

/-- A decoded model output with one technology and three questions. -/
def threeQuestionJson : Json :=
  Json.obj [("assessment",
    Json.obj [("Python", Json.arr [qObj "q one", qObj "q two", qObj "q three"])])]

/-- A GATHER_INFO session state whose last stored turn carries the
transition marker phrase. -/
def markerState : AState :=
  ⟨[⟨Role.user, "my stack is python"⟩,
    ⟨Role.assistant,
      "We are now moving to the **Technical Assessment Stage**. Please type NEXT to confirm."⟩],
   0, [], [], none⟩

/-- A session state at the ASK_QUESTIONS entry point: two questions queued,
the first already presented, cursor 1. -/
def askEntryState : AState := ⟨[], 1, ["q one", "q two"], [], none⟩

/-! ### Claim theorems -/

/-- Claim C2: in every state, a user input that lowercases to one of the four exit
words makes `process_user_input` return the fixed closing message with next
state END, regardless of the session fields and of any model behaviour — the
override precedes all state-specific handling. -/
theorem exit_words_override_every_state (o : LLMOracle) (input : String)
    (s : ConvState) (st : AState)
    (hx : exitWords.contains (pyLower input) = true) :
    process_user_input o input s st =
      Except.ok (closingMessage, ConvState.END, st) := by
  have hx2 : pyLower input ∈ exitWords := by simpa using hx
  simp [process_user_input, hx2, end_conversation]

theorem exit_words_override_every_state_witness :
    process_user_input quietOracle "QUIT" ConvState.ASK_QUESTIONS askEntryState =
      Except.ok (closingMessage, ConvState.END, askEntryState) :=
  exit_words_override_every_state quietOracle "QUIT" ConvState.ASK_QUESTIONS askEntryState
    (by decide)

/-- Claim C6: when the model call inside tech-stack extraction raises, the
extractor returns exactly the two-element fallback list; being a total
function into `List String`, it lets no exception escape to the caller. -/
theorem extraction_error_yields_fallback (e : String) :
    extract_tech_stack_from_history (Except.error e) = ["Python", "SQL"] := rfl

/-- Claim C7: END is terminal and absorbing: for every input, oracle and session
state, a turn processed in END returns next state END — the closing message
for exit words, the generic fallback echo otherwise. -/
theorem end_state_absorbing (o : LLMOracle) (input : String) (st : AState) :
    process_user_input o input ConvState.END st =
      Except.ok
        ((if exitWords.contains (pyLower input) then closingMessage
          else didNotUnderstandMessage),
         ConvState.END, st) := by
  by_cases hx : pyLower input ∈ exitWords
  · have hb : exitWords.contains (pyLower input) = true := by simpa using hx
    simp [process_user_input, hx, hb, end_conversation]
  · have hb : exitWords.contains (pyLower input) = false := by simpa using hx
    simp [process_user_input, hx, hb]

/-- Claim C1: from GATHER_INFO with a non-exit input, the confirmation transition
fires iff the input contains "next" case-insensitively AND the marker phrase
occurs in the last stored turn (both lowercased): when the conjunction
fails, the turn delegates to the information-gathering chain and the next
state stays GATHER_INFO; when it holds, every normally returned next state
has left GATHER_INFO, being ASK_QUESTIONS or the failure END branch. -/
theorem gather_confirmation_iff_marker_and_next (o : LLMOracle) (input : String)
    (st : AState) (hx : exitWords.contains (pyLower input) = false) :
    ((strContains (pyLower input) nextKeyword
        && strContains (lastHistoryLower st) markerPhrase) = false →
      process_user_input o input ConvState.GATHER_INFO st =
        Except.ok (o.infoResponse, ConvState.GATHER_INFO, (runInfoChain o input st).2))
    ∧ ((strContains (pyLower input) nextKeyword
        && strContains (lastHistoryLower st) markerPhrase) = true →
      ∀ resp s2 st2,
        process_user_input o input ConvState.GATHER_INFO st = Except.ok (resp, s2, st2) →
        s2 = ConvState.ASK_QUESTIONS ∨ s2 = ConvState.END) := by
  have hx2 : pyLower input ∉ exitWords := by simpa using hx
  constructor
  · intro hg
    simp [process_user_input, hx2, hg, runInfoChain]
  · intro hg resp s2 st2 hok
    simp only [process_user_input] at hok
    rw [if_neg (by simpa using hx2)] at hok
    rw [if_pos hg] at hok
    rcases hgen : generate_technical_questions
        (extract_tech_stack_from_history o.extractResponse) o.genResponse st with e | r
    · rw [hgen] at hok
      cases hok
    · rw [hgen] at hok
      obtain ⟨ropt, rst⟩ := r
      by_cases hemp : rst.all_questions_list = []
      · simp [hemp] at hok
        exact Or.inr hok.2.1.symm
      · simp [hemp] at hok
        exact Or.inl hok.2.1.symm

theorem gather_confirmation_iff_marker_and_next_witness :
    ((strContains (pyLower "tell me more") nextKeyword
        && strContains (lastHistoryLower markerState) markerPhrase) = false →
      process_user_input quietOracle "tell me more" ConvState.GATHER_INFO markerState =
        Except.ok (quietOracle.infoResponse, ConvState.GATHER_INFO,
          (runInfoChain quietOracle "tell me more" markerState).2))
    ∧ ((strContains (pyLower "tell me more") nextKeyword
        && strContains (lastHistoryLower markerState) markerPhrase) = true →
      ∀ resp s2 st2,
        process_user_input quietOracle "tell me more" ConvState.GATHER_INFO markerState =
          Except.ok (resp, s2, st2) →
        s2 = ConvState.ASK_QUESTIONS ∨ s2 = ConvState.END) :=
  gather_confirmation_iff_marker_and_next quietOracle "tell me more" markerState (by decide)

/-- Claim C8: for every non-exit input answered in state ASK_QUESTIONS, the value
recorded in the answer mapping under the key derived from the pre-turn
cursor position equals the literal input text, unmodified. -/
theorem answer_roundtrip (o : LLMOracle) (input : String) (st : AState)
    (hx : exitWords.contains (pyLower input) = false) :
    ∀ resp s2 st2,
      process_user_input o input ConvState.ASK_QUESTIONS st = Except.ok (resp, s2, st2) →
      dictLookup st2.user_answers ("Q" ++ toString st.current_question_index)
        = some input := by
  intro resp s2 st2 hok
  by_cases h : st.current_question_index < st.all_questions_list.length
  · by_cases hq : st.all_questions_list.get ⟨st.current_question_index, h⟩ = ""
    · rw [process_ask_of_empty o input st hx h hq] at hok
      simp at hok
      rw [← hok.2.2]
      exact dictLookup_dictInsert _ _ _
    · rw [process_ask_of_lt o input st hx h hq] at hok
      simp at hok
      rw [← hok.2.2]
      exact dictLookup_dictInsert _ _ _
  · rw [process_ask_of_ge o input st hx h] at hok
    simp at hok
    rw [← hok.2.2]
    exact dictLookup_dictInsert _ _ _

theorem answer_roundtrip_witness :
    dictLookup [("Q1", "my literal answer")] "Q1" = some "my literal answer" :=
  answer_roundtrip quietOracle "my literal answer" askEntryState (by decide) _ _ _ rfl

/-- Claim C9: numbering offset. Every ASK_QUESTIONS turn that still displays a
question returns the (c+1)-th queue entry (1-based; c the pre-turn cursor)
labelled with number c+2; the confirmation turn alone presents the queue
head — true position 1 — labelled 1. -/
theorem question_numbering_offset :
    (∀ (o : LLMOracle) (input : String) (st : AState),
       exitWords.contains (pyLower input) = false →
       ∀ h : st.current_question_index < st.all_questions_list.length,
       st.all_questions_list.get ⟨st.current_question_index, h⟩ ≠ "" →
       process_user_input o input ConvState.ASK_QUESTIONS st =
         Except.ok
           (ackMessage (st.current_question_index + 2)
             (st.all_questions_list.get ⟨st.current_question_index, h⟩),
            ConvState.ASK_QUESTIONS,
            { st with
              user_answers := answerInsert st input,
              current_question_index := st.current_question_index + 1 }))
    ∧ (∀ (o : LLMOracle) (input : String) (st : AState)
         (j : Json) (a : List (String × List String))
         (hne : flattenAssessment a ≠ []),
         exitWords.contains (pyLower input) = false →
         (strContains (pyLower input) nextKeyword
            && strContains (lastHistoryLower st) markerPhrase) = true →
         o.genResponse = Except.ok j →
         parseTechAssessment j = some a →
         st.all_questions_list = [] →
         st.current_question_index = 0 →
         process_user_input o input ConvState.GATHER_INFO st =
           Except.ok
             (announceMessage (flattenAssessment a).length ((flattenAssessment a).head hne),
              ConvState.ASK_QUESTIONS,
              { st with
                tech_questions := some a,
                all_questions_list := flattenAssessment a,
                current_question_index := 1 })) := by
  constructor
  · intro o input st hx h hq
    exact process_ask_of_lt o input st hx h hq
  · intro o input st j a hne hx hg hj hp hq0 hc0
    have hx2 : pyLower input ∉ exitWords := by simpa using hx
    have hL : 0 < (flattenAssessment a).length := List.length_pos.mpr hne
    simp [process_user_input, hx2, hg, hj, generate_technical_questions, hp, hq0, hne,
      get_next_question, hc0, hL, List.head_eq_getElem_zero]

theorem question_numbering_offset_witness :
    (process_user_input quietOracle "answer one" ConvState.ASK_QUESTIONS askEntryState =
      Except.ok
        (ackMessage 3 "q two", ConvState.ASK_QUESTIONS,
         ⟨[], 2, ["q one", "q two"], [("Q1", "answer one")], none⟩))
    ∧ (process_user_input ⟨"ok", Except.ok "Python", Except.ok threeQuestionJson⟩ "NEXT"
        ConvState.GATHER_INFO markerState =
      Except.ok
        (announceMessage 3 "q one", ConvState.ASK_QUESTIONS,
         ⟨markerState.history, 1, ["q one", "q two", "q three"], [],
          some [("Python", ["q one", "q two", "q three"])]⟩)) := by
  constructor
  · exact question_numbering_offset.1 quietOracle "answer one" askEntryState
      (by decide) (by decide) (by decide)
  · exact question_numbering_offset.2 ⟨"ok", Except.ok "Python", Except.ok threeQuestionJson⟩
      "NEXT" markerState threeQuestionJson [("Python", ["q one", "q two", "q three"])]
      (by decide) (by decide) (by decide) rfl (by decide) rfl rfl

/-- Claim C10: frame property of an ASK_QUESTIONS turn with a non-exit input whose
derived key is not yet present: exactly one pair is appended to the answer
mapping (nothing is overwritten), the question queue is unchanged, and the
cursor advances by exactly one when a question remained and by zero
otherwise. -/
theorem ask_turn_frame (o : LLMOracle) (input : String) (st : AState)
    (hx : exitWords.contains (pyLower input) = false)
    (hfresh : dictLookup st.user_answers ("Q" ++ toString st.current_question_index)
      = none) :
    ∀ resp s2 st2,
      process_user_input o input ConvState.ASK_QUESTIONS st = Except.ok (resp, s2, st2) →
      st2.user_answers
          = st.user_answers ++ [("Q" ++ toString st.current_question_index, input)]
        ∧ st2.all_questions_list = st.all_questions_list
        ∧ st2.current_question_index
            = (if st.current_question_index < st.all_questions_list.length
               then st.current_question_index + 1 else st.current_question_index) := by
  intro resp s2 st2 hok
  have hins : answerInsert st input
      = st.user_answers ++ [("Q" ++ toString st.current_question_index, input)] :=
    dictInsert_of_lookup_none _ _ _ hfresh
  by_cases h : st.current_question_index < st.all_questions_list.length
  · by_cases hq : st.all_questions_list.get ⟨st.current_question_index, h⟩ = ""
    · rw [process_ask_of_empty o input st hx h hq] at hok
      simp at hok
      rw [← hok.2.2]
      simp [hins, h]
    · rw [process_ask_of_lt o input st hx h hq] at hok
      simp at hok
      rw [← hok.2.2]
      simp [hins, h]
  · rw [process_ask_of_ge o input st hx h] at hok
    simp at hok
    rw [← hok.2.2]
    simp [hins, h]

theorem ask_turn_frame_witness :
    ([("Q1", "an answer")] : List (String × String)) = [] ++ [("Q1", "an answer")]
    ∧ (["q one", "q two"] : List String) = ["q one", "q two"]
    ∧ (2 : Nat) = (if 1 < (["q one", "q two"] : List String).length then 2 else 1) :=
  ask_turn_frame quietOracle "an answer" askEntryState (by decide) (by decide) _ _ _ rfl

/-- Counterexample to claim C3: from the ASK_QUESTIONS entry point with a two-entry
queue (cursor 1), answering M = 1 question leaves the cursor at 2, not at
M = 1 as the claim states. -/
theorem cursor_equals_answer_count_cex :
    (runTurns quietOracle ["my first answer"] ConvState.ASK_QUESTIONS
        askEntryState).2.current_question_index = 2
    ∧ (2 : Nat) ≠ 1 := by
  exact ⟨rfl, by decide⟩

/-- Claim C3 as amended: from the ASK_QUESTIONS entry point (first question
presented, cursor = 1, queue of L ≥ 1 nonempty question texts), after the
user has answered M ≤ L questions the cursor equals min (M+1) L — it counts
presented questions, exceeding the answered count by one until the final
answer, where it equals M = L; and when the cursor equals the queue length,
requesting the next question yields none and the controller turn returns the
closing message with transition to END. -/
theorem cursor_after_answers (o : LLMOracle) (inputs : List String) (st : AState)
    (hx : ∀ i ∈ inputs, exitWords.contains (pyLower i) = false)
    (hne : "" ∉ st.all_questions_list)
    (hc : st.current_question_index = 1)
    (hL : 1 ≤ st.all_questions_list.length)
    (hM : inputs.length ≤ st.all_questions_list.length) :
    (runTurns o inputs ConvState.ASK_QUESTIONS st).2.current_question_index
        = min (inputs.length + 1) st.all_questions_list.length
    ∧ (∀ st2 : AState,
        st2.current_question_index = st2.all_questions_list.length →
        (get_next_question st2).1 = none)
    ∧ (∀ (i2 : String) (st2 : AState),
        exitWords.contains (pyLower i2) = false →
        st2.current_question_index = st2.all_questions_list.length →
        process_user_input o i2 ConvState.ASK_QUESTIONS st2 =
          Except.ok (closingMessage, ConvState.END,
            { st2 with user_answers := answerInsert st2 i2 })) := by
  refine ⟨?_, ?_, ?_⟩
  · have hrun := (runTurns_ask_cursor o inputs st hx hne
      (by omega) (by omega)).1
    rw [hrun, hc, Nat.add_comm]
  · intro st2 h2
    exact congrArg Prod.fst (get_next_question_of_ge st2 (by omega))
  · intro i2 st2 hx2 h2
    exact process_ask_of_ge o i2 st2 hx2 (by omega)

theorem cursor_after_answers_witness :
    (runTurns quietOracle ["a one", "a two"] ConvState.ASK_QUESTIONS
        askEntryState).2.current_question_index = 2 :=
  (cursor_after_answers quietOracle ["a one", "a two"] askEntryState
    (by decide) (by decide) rfl (by decide) (by decide)).1

/-- Counterexample to claim C4: the decoder accepts an assessment whose single
technology carries exactly one question — generation succeeds, yet the
technology maps to a list of length 1, outside [3, 5], and the queue length
1 lies outside [3N, 5N] for N = 1. -/
theorem assessment_bounds_not_enforced_cex :
    parseTechAssessment oneQuestionJson = some [("Python", ["What is a decorator?"])]
    ∧ generate_technical_questions ["Python"] (Except.ok oneQuestionJson) initialState =
        Except.ok (some [("Python", ["What is a decorator?"])],
          ⟨[], 0, ["What is a decorator?"], [],
           some [("Python", ["What is a decorator?"])]⟩)
    ∧ ¬ (3 ≤ (flattenAssessment [("Python", ["What is a decorator?"])]).length) := by
  exact ⟨by decide, rfl, by decide⟩

/-- Claim C4 as amended: when generation succeeds, the decoded questions are
appended to the flattened queue and the appended length equals the sum of
the per-technology question counts; the decoder enforces no per-technology
bound, so the queue length lies in [3N, 5N] (N the number of decoded
technologies) exactly under the additional assumption that every technology
list holds between 3 and 5 questions. -/
theorem queue_length_sum_of_counts (tech_stack : List String) (j : Json)
    (st : AState) (a : List (String × List String))
    (hp : parseTechAssessment j = some a) :
    (∃ st2 : AState,
        generate_technical_questions tech_stack (Except.ok j) st =
          Except.ok (some a, st2)
        ∧ st2.all_questions_list = st.all_questions_list ++ flattenAssessment a)
    ∧ (flattenAssessment a).length = (a.map (fun p => p.2.length)).sum
    ∧ ((∀ p ∈ a, 3 ≤ p.2.length ∧ p.2.length ≤ 5) →
        3 * a.length ≤ (flattenAssessment a).length
        ∧ (flattenAssessment a).length ≤ 5 * a.length) := by
  refine ⟨?_, length_flattenAssessment a, ?_⟩
  · refine ⟨{ st with
        tech_questions := some a,
        all_questions_list := st.all_questions_list ++ flattenAssessment a }, ?_, rfl⟩
    simp [generate_technical_questions, hp]
  · intro hb
    have hs := sum_counts_bounds a hb
    rw [length_flattenAssessment a]
    exact hs

theorem queue_length_sum_of_counts_witness :
    3 * 1 ≤ (flattenAssessment [("Python", ["q one", "q two", "q three"])]).length :=
  ((queue_length_sum_of_counts ["Python"] threeQuestionJson initialState
      [("Python", ["q one", "q two", "q three"])] (by decide)).2.2 (by decide)).1

/-- Counterexample to claim C5: a model-call error inside question generation is NOT
reported as a failed result: the generator re-raises it, and at the
confirmation turn the exception escapes `process_user_input` instead of the
generation-failed message being returned. -/
theorem generation_model_error_escapes_cex :
    generate_technical_questions ["Python"] (Except.error "model call failed")
        initialState = Except.error "model call failed"
    ∧ generate_technical_questions ["Python"] (Except.error "model call failed")
        initialState ≠ Except.ok (none, initialState)
    ∧ process_user_input ⟨"ok", Except.ok "Python", Except.error "model call failed"⟩
        "NEXT" ConvState.GATHER_INFO markerState =
        Except.error "model call failed" := by
  refine ⟨rfl, by simp [generate_technical_questions], ?_⟩
  have hx2 : pyLower "NEXT" ∉ exitWords := by decide
  have hg : (strContains (pyLower "NEXT") nextKeyword
      && strContains (lastHistoryLower markerState) markerPhrase) = true := by decide
  simp [process_user_input, hx2, hg, generate_technical_questions]

/-- Claim C5 as amended: a decode/schema-mismatch of the model output is reported
by the generator as `none` with the session fields untouched (no exception),
and at the GATHER_INFO confirmation turn with an empty queue it is surfaced
as the generation-failed message with transition to END and no retry; a
model-call error inside generation, by contrast, is not caught by the
generator and propagates. -/
theorem decode_failure_surfaced (o : LLMOracle) (input : String) (st : AState)
    (j : Json) (ts : List String)
    (hx : exitWords.contains (pyLower input) = false)
    (hg : (strContains (pyLower input) nextKeyword
        && strContains (lastHistoryLower st) markerPhrase) = true)
    (hj : o.genResponse = Except.ok j)
    (hp : parseTechAssessment j = none)
    (hq : st.all_questions_list = []) :
    generate_technical_questions ts (Except.ok j) st = Except.ok (none, st)
    ∧ process_user_input o input ConvState.GATHER_INFO st =
        Except.ok (genFailedMessage, ConvState.END, st)
    ∧ (∀ e, generate_technical_questions ts (Except.error e) st = Except.error e) := by
  have hx2 : pyLower input ∉ exitWords := by simpa using hx
  refine ⟨by simp [generate_technical_questions, hp], ?_, fun e => rfl⟩
  simp [process_user_input, hx2, hg, hj, generate_technical_questions, hp, hq]

theorem decode_failure_surfaced_witness :
    process_user_input ⟨"ok", Except.ok "Python", Except.ok (Json.str "not json")⟩
        "NEXT" ConvState.GATHER_INFO markerState =
      Except.ok (genFailedMessage, ConvState.END, markerState) :=
  (decode_failure_surfaced ⟨"ok", Except.ok "Python", Except.ok (Json.str "not json")⟩
    "NEXT" markerState (Json.str "not json") ["Python"]
    (by decide) (by decide) rfl (by decide) rfl).2.1

end TalentScout
